import Mathlib

/-!
Verification of the omnium request-authentication core against its
specification.  The Rust sources under `src/` are shallowly embedded:
strings are modelled as `List Char`, byte strings as `List Nat` with every
entry `< 256`, fallible functions return `Except`/`RustOutcome`, and the
randomness consumed by the code (nonces, secret material) is passed as an
explicit argument.  External crates (aes_gcm, jsonwebtoken/ring) are
modelled by executable stand-ins that satisfy the contracts the repository
relies on; every definition that models an external crate says so in its
doc comment.
-/

/-- Outcome of running a Rust function that may return `Err` (the single
opaque `anyhow::Error` kind, modelled as a bare constructor) or unwind with
a panic.  A panic is distinct from returning an error value. -/
inductive RustOutcome (α : Type) where
  | ok : α → RustOutcome α
  | err : RustOutcome α
  | panicked : RustOutcome α
deriving DecidableEq, Repr

/-! ## Base64 (model of `data_encoding::BASE64`: standard alphabet, padded,
canonical) -/

/-- The standard base64 alphabet, as used by `data_encoding::BASE64`. -/
def b64Char (n : Nat) : Char :=
  if n < 26 then Char.ofNat (65 + n)
  else if n < 52 then Char.ofNat (97 + (n - 26))
  else if n < 62 then Char.ofNat (48 + (n - 52))
  else if n = 62 then '+'
  else '/'

/-- Inverse of the base64 alphabet; `none` on characters outside it. -/
def b64Val (c : Char) : Option Nat :=
  let n := c.toNat
  if 65 ≤ n ∧ n ≤ 90 then some (n - 65)
  else if 97 ≤ n ∧ n ≤ 122 then some (26 + (n - 97))
  else if 48 ≤ n ∧ n ≤ 57 then some (52 + (n - 48))
  else if c = '+' then some 62
  else if c = '/' then some 63
  else none

/-- Base64-encode a byte sequence (standard alphabet, `=` padding). -/
def b64Encode : List Nat → List Char
  | [] => []
  | [a] => [b64Char (a / 4), b64Char (a % 4 * 16), '=', '=']
  | [a, b] => [b64Char (a / 4), b64Char (a % 4 * 16 + b / 16), b64Char (b % 16 * 4), '=']
  | a :: b :: c :: rest =>
      b64Char (a / 4) :: b64Char (a % 4 * 16 + b / 16) ::
      b64Char (b % 16 * 4 + c / 64) :: b64Char (c % 64) :: b64Encode rest

/-- Base64-decode (strict: length a multiple of four, canonical padding and
trailing bits, as `data_encoding::BASE64.decode` enforces); `none` on
malformed input. -/
def b64Decode : List Char → Option (List Nat)
  | [] => some []
  | c0 :: c1 :: c2 :: c3 :: rest =>
    (b64Val c0).bind fun s0 =>
    (b64Val c1).bind fun s1 =>
    if c2 = '=' then
      if c3 = '=' ∧ rest = [] then
        if s1 % 16 = 0 then some [s0 * 4 + s1 / 16] else none
      else none
    else
      (b64Val c2).bind fun s2 =>
      if c3 = '=' then
        if rest = [] then
          if s2 % 4 = 0 then some [s0 * 4 + s1 / 16, s1 % 16 * 16 + s2 / 4] else none
        else none
      else
        (b64Val c3).bind fun s3 =>
        (b64Decode rest).map
          (fun tail =>
            (s0 * 4 + s1 / 16) :: (s1 % 16 * 16 + s2 / 4) :: (s2 % 4 * 64 + s3) :: tail)
  | _ => none

theorem b64Val_b64Char : ∀ n, n < 64 → b64Val (b64Char n) = some n := by decide

theorem b64Char_ne_pad : ∀ n, n < 64 → b64Char n ≠ '=' := by decide

theorem b64Char_ascii : ∀ n, n < 64 → (b64Char n).toNat < 128 := by decide

/-- Decoding one full (non-padded) base64 group recovers the three bytes it
encodes and recurses on the remainder. -/
theorem b64Decode_group (s0 s1 s2 s3 : Nat) (h0 : s0 < 64) (h1 : s1 < 64)
    (h2 : s2 < 64) (h3 : s3 < 64) (rest : List Char) :
    b64Decode (b64Char s0 :: b64Char s1 :: b64Char s2 :: b64Char s3 :: rest) =
      (b64Decode rest).map
        (fun tail =>
          (s0 * 4 + s1 / 16) :: (s1 % 16 * 16 + s2 / 4) :: (s2 % 4 * 64 + s3) :: tail) := by
  simp only [b64Decode, b64Val_b64Char _ h0, b64Val_b64Char _ h1, b64Val_b64Char _ h2,
    b64Val_b64Char _ h3, Option.some_bind, if_neg (b64Char_ne_pad _ h2),
    if_neg (b64Char_ne_pad _ h3)]

theorem b64Decode_b64Encode (l : List Nat) (h : ∀ b ∈ l, b < 256) :
    b64Decode (b64Encode l) = some l := by
  match l with
  | [] => rfl
  | [a] =>
    have ha : a < 256 := h a (by simp)
    simp only [b64Encode, b64Decode, b64Val_b64Char _ (show a / 4 < 64 by omega),
      b64Val_b64Char _ (show a % 4 * 16 < 64 by omega), Option.some_bind]
    simp
    omega
  | [a, b] =>
    have ha : a < 256 := h a (by simp)
    have hb : b < 256 := h b (by simp)
    simp only [b64Encode, b64Decode, b64Val_b64Char _ (show a / 4 < 64 by omega),
      b64Val_b64Char _ (show a % 4 * 16 + b / 16 < 64 by omega),
      b64Val_b64Char _ (show b % 16 * 4 < 64 by omega), Option.some_bind,
      if_neg (b64Char_ne_pad _ (show b % 16 * 4 < 64 by omega))]
    simp
    omega
  | [a, b, c] =>
    have ha : a < 256 := h a (by simp)
    have hb : b < 256 := h b (by simp)
    have hc : c < 256 := h c (by simp)
    rw [show b64Encode [a, b, c] =
      b64Char (a / 4) :: b64Char (a % 4 * 16 + b / 16) ::
      b64Char (b % 16 * 4 + c / 64) :: b64Char (c % 64) :: b64Encode [] from rfl]
    rw [b64Decode_group _ _ _ _ (by omega) (by omega) (by omega) (by omega)]
    simp only [b64Decode, Option.map_some, Option.some.injEq, List.cons.injEq]
    simp
    omega
  | a :: b :: c :: d :: rest2 =>
    have ha : a < 256 := h a (by simp)
    have hb : b < 256 := h b (by simp)
    have hc : c < 256 := h c (by simp)
    have ih := b64Decode_b64Encode (d :: rest2) (fun x hx => h x (by simp_all))
    rw [show b64Encode (a :: b :: c :: d :: rest2) =
      b64Char (a / 4) :: b64Char (a % 4 * 16 + b / 16) ::
      b64Char (b % 16 * 4 + c / 64) :: b64Char (c % 64) :: b64Encode (d :: rest2) from rfl]
    rw [b64Decode_group _ _ _ _ (by omega) (by omega) (by omega) (by omega)]
    rw [ih]
    simp
    omega

theorem b64Encode_length (l : List Nat) :
    (b64Encode l).length = 4 * ((l.length + 2) / 3) := by
  match l with
  | [] => rfl
  | [a] => simp [b64Encode]
  | [a, b] => simp [b64Encode]
  | a :: b :: c :: rest =>
    have ih := b64Encode_length rest
    simp only [b64Encode, List.length_cons, ih]
    omega

theorem b64Encode_ascii (l : List Nat) (h : ∀ b ∈ l, b < 256) :
    ∀ c ∈ b64Encode l, c.toNat < 128 := by
  match l with
  | [] => simp [b64Encode]
  | [a] =>
    have ha : a < 256 := h a (by simp)
    simp only [b64Encode, List.mem_cons]
    rintro c (rfl | rfl | rfl | rfl | hmem)
    · exact b64Char_ascii _ (by omega)
    · exact b64Char_ascii _ (by omega)
    · decide
    · decide
    · simp at hmem
  | [a, b] =>
    have ha : a < 256 := h a (by simp)
    have hb : b < 256 := h b (by simp)
    simp only [b64Encode, List.mem_cons]
    rintro c (rfl | rfl | rfl | rfl | hmem)
    · exact b64Char_ascii _ (by omega)
    · exact b64Char_ascii _ (by omega)
    · exact b64Char_ascii _ (by omega)
    · decide
    · simp at hmem
  | a :: b :: c :: rest =>
    have ha : a < 256 := h a (by simp)
    have hb : b < 256 := h b (by simp)
    have hc : c < 256 := h c (by simp)
    have ih := b64Encode_ascii rest (fun x hx => h x (by simp_all))
    simp only [b64Encode, List.mem_cons]
    rintro x (rfl | rfl | rfl | rfl | hmem)
    · exact b64Char_ascii _ (by omega)
    · exact b64Char_ascii _ (by omega)
    · exact b64Char_ascii _ (by omega)
    · exact b64Char_ascii _ (by omega)
    · exact ih x hmem

/-- Base64 encoding is injective on byte sequences (consequence of the
decode round trip). -/
theorem b64Encode_injOn (l1 l2 : List Nat) (h1 : ∀ b ∈ l1, b < 256)
    (h2 : ∀ b ∈ l2, b < 256) (he : b64Encode l1 = b64Encode l2) : l1 = l2 := by
  have r1 := b64Decode_b64Encode l1 h1
  have r2 := b64Decode_b64Encode l2 h2
  rw [he, r2] at r1
  exact (Option.some_inj.mp r1).symm

/-! ## UTF-8 validity (model of `String::from_utf8`'s well-formedness check) -/

/-- One step of UTF-8 validation.  The state is `none` once malformed, else
`some (remaining, lo, hi)`: the number of continuation bytes still expected
and the admissible range for the next byte (the first continuation byte of
a sequence has a restricted range, ruling out overlong forms and
surrogates). -/
def utf8Next (st : Option (Nat × Nat × Nat)) (b : Nat) : Option (Nat × Nat × Nat) :=
  match st with
  | none => none
  | some (0, _, _) =>
      if b < 0x80 then some (0, 0, 0)
      else if b < 0xC2 then none
      else if b < 0xE0 then some (1, 0x80, 0xBF)
      else if b = 0xE0 then some (2, 0xA0, 0xBF)
      else if b = 0xED then some (2, 0x80, 0x9F)
      else if b < 0xF0 then some (2, 0x80, 0xBF)
      else if b = 0xF0 then some (3, 0x90, 0xBF)
      else if b < 0xF4 then some (3, 0x80, 0xBF)
      else if b = 0xF4 then some (3, 0x80, 0x8F)
      else none
  | some (n + 1, lo, hi) =>
      if lo ≤ b ∧ b ≤ hi then some (n, 0x80, 0xBF) else none

/-- A byte sequence is valid UTF-8 iff the validation automaton accepts it
with no continuation bytes pending.  `String::from_utf8` succeeds exactly on
such sequences. -/
def isValidUtf8 (l : List Nat) : Bool :=
  match l.foldl utf8Next (some (0, 0, 0)) with
  | some (0, _, _) => true
  | _ => false

/-! ## SymmetricCipher (`src/src/security/crypto.rs`) -/

/-- Modelled from the spec: the authentication tag of the external
`aes_gcm` crate's AES-256-GCM, a 16-byte value determined by key, nonce and
ciphertext body.  Only the AEAD contract matters to the repository code. -/
def gcmTag (key nonce ct : List Nat) : List Nat :=
  List.replicate 16
    ((key.foldl (fun acc b => acc * 31 + b) 7 +
      nonce.foldl (fun acc b => acc * 37 + b) 11 +
      ct.foldl (fun acc b => acc * 41 + b) 13) % 256)

/-- Modelled from the spec: `Aes256Gcm::encrypt` of the external `aes_gcm`
crate.  The ciphertext carries the plaintext body with the 16-byte
authentication tag appended (`integrity tag appended to ciphertext`). -/
def aes256gcmEncrypt (key nonce pt : List Nat) : List Nat :=
  pt ++ gcmTag key nonce pt

/-- Modelled from the spec: `Aes256Gcm::decrypt` of the external `aes_gcm`
crate — splits off the trailing 16-byte tag, verifies it against key and
nonce, and fails (`none`) on any mismatch or on inputs shorter than a tag. -/
def aes256gcmDecrypt (key nonce ct : List Nat) : Option (List Nat) :=
  if ct.length < 16 then none
  else
    let body := ct.take (ct.length - 16)
    let tag := ct.drop (ct.length - 16)
    if tag = gcmTag key nonce body then some body else none

theorem gcmTag_length (key nonce ct : List Nat) : (gcmTag key nonce ct).length = 16 := by
  simp [gcmTag]

theorem gcmTag_bytes (key nonce ct : List Nat) : ∀ b ∈ gcmTag key nonce ct, b < 256 := by
  intro b hb
  simp only [gcmTag, List.mem_replicate] at hb
  omega

/-- The AEAD model satisfies its round-trip contract. -/
theorem aes256gcmDecrypt_encrypt (key nonce pt : List Nat) :
    aes256gcmDecrypt key nonce (aes256gcmEncrypt key nonce pt) = some pt := by
  have hlen : (aes256gcmEncrypt key nonce pt).length = pt.length + 16 := by
    simp [aes256gcmEncrypt, gcmTag_length]
  have htake : (aes256gcmEncrypt key nonce pt).take pt.length = pt := by
    simp [aes256gcmEncrypt]
  have hdrop : (aes256gcmEncrypt key nonce pt).drop pt.length = gcmTag key nonce pt := by
    simp [aes256gcmEncrypt]
  rw [aes256gcmDecrypt, if_neg (by omega)]
  simp [hlen, Nat.add_sub_cancel, htake, hdrop]

/-- `std::io::Read::read_exact` into a `[0u8; 32]` buffer, as used to derive
the AES-256 key from the secret: takes the first 32 bytes of the source,
failing when fewer than 32 are available. -/
def read_exact_32 (source : List Nat) : Except Unit (List Nat) :=
  if source.length < 32 then .error () else .ok (source.take 32)

/-- `encrypt_string_aes256_gcm` (src/src/security/crypto.rs).  The 12-byte
nonce filled by `ring`'s `SystemRandom` is passed as an explicit argument;
`cipher.encrypt` never fails on the inputs the repository can produce, so
the `Failed to encrypt` bail is unreachable in the model. -/
def encrypt_string_aes256_gcm (plainText secret nonce : List Nat) : RustOutcome (List Char) :=
  match read_exact_32 secret with
  | .error _ => .err
  | .ok key => .ok (b64Encode (nonce ++ aes256gcmEncrypt key nonce plainText))

/-- `decrypt_string_aes256_gcm` (src/src/security/crypto.rs).  Mirrors the
source order: key derivation via `read_exact`, base64 decode, then
`data.split_at(12)` — which, being a slice `split_at`, panics when the
decoded payload holds fewer than 12 bytes — then AEAD decryption and
`String::from_utf8`. -/
def decrypt_string_aes256_gcm (encryptedText : List Char) (secret : List Nat) :
    RustOutcome (List Nat) :=
  match read_exact_32 secret with
  | .error _ => .err
  | .ok key =>
    match b64Decode encryptedText with
    | none => .err
    | some data =>
      if data.length < 12 then .panicked
      else
        let nonce := data.take 12
        let cipherText := data.drop 12
        match aes256gcmDecrypt key nonce cipherText with
        | none => .err
        | some result => if isValidUtf8 result then .ok result else .err

/-- Composition of encrypt and decrypt under the same secret, propagating
errors and panics. -/
def encryptThenDecrypt (plainText secret nonce : List Nat) : RustOutcome (List Nat) :=
  match encrypt_string_aes256_gcm plainText secret nonce with
  | .ok ct => decrypt_string_aes256_gcm ct secret
  | .err => .err
  | .panicked => .panicked

/-! ## SecretMaterial (`src/src/security/secrets.rs`, `src/src/authn/secrets.rs`) -/

structure OmniumServiceSecret where
  value : List Char
deriving DecidableEq, Repr

structure OmniumSessionSecret where
  value : List Char
deriving DecidableEq, Repr

/-- `create_service_secret`: 64 random bytes (the `[0u8; 64]` buffer filled
by `ring`'s `SystemRandom`, passed explicitly), base64-encoded. -/
def create_service_secret (randomBytes : List Nat) : OmniumServiceSecret :=
  ⟨b64Encode randomBytes⟩

/-- `create_session_secret`: identical body to `create_service_secret`. -/
def create_session_secret (randomBytes : List Nat) : OmniumSessionSecret :=
  ⟨b64Encode randomBytes⟩

/-- `str::as_bytes`, for strings whose characters are all ASCII (every
string the embedding feeds it is): one byte per character. -/
def strBytes (s : List Char) : List Nat := s.map Char.toNat

/-! ## ClaimsCodec: `expires_in` (`src/src/authn/claims.rs`) -/

/-- Largest value of `u64`. -/
def u64Max : Nat := 2 ^ 64 - 1

/-- Largest value of `usize` on the 64-bit targets the service runs on. -/
def usizeMax : Nat := u64Max

/-- `expires_in` (src/src/authn/claims.rs).  `SystemTime::now()` is passed
as `nowSinceEpoch`: `none` models a clock before the Unix epoch, on which
`duration_since` returns an `Err`.  `Duration::add` panics (does not return
an error) when the seconds counter overflows `u64`; `usize::try_from`
errors when the sum exceeds `usize` (never, on 64-bit targets). -/
def expires_in (nowSinceEpoch : Option Nat) (durationSecs : Nat) : RustOutcome Nat :=
  match nowSinceEpoch with
  | none => .err
  | some now =>
    if u64Max < now + durationSecs then .panicked
    else if usizeMax < now + durationSecs then .err
    else .ok (now + durationSecs)

/-! ## ClaimsCodec: signed tokens (`src/src/authn/claims.rs`) -/

/-- The claim set carried by a token, with presence of each field tracked so
that the `required_spec_claims` check (`sub`, `exp`) is expressible. -/
structure JwtClaims where
  sub : Option (List Char)
  exp : Option Nat
  omn_cl_typ : Option (List Char)
deriving DecidableEq, Repr

/-- A signed token: JWT header algorithm tag, claims payload, signature. -/
structure Jwt where
  alg : List Char
  payload : JwtClaims
  sig : List Nat
deriving DecidableEq, Repr

def hs512Alg : List Char := "HS512".toList

/-- Modelled from the spec: the HMAC-SHA-512 keyed MAC used by the external
`jsonwebtoken` crate — a 64-byte tag that is a function of key and message.
-/
def hmacSha512 (key msg : List Nat) : List Nat :=
  List.replicate 64
    ((key.foldl (fun acc b => acc * 31 + b) 3 +
      msg.foldl (fun acc b => acc * 37 + b) 5) % 256)

/-- Byte serialization of an optional string field of the signed payload. -/
def optStrBytes : Option (List Char) → List Nat
  | none => [0]
  | some s => 1 :: s.length :: s.map Char.toNat

/-- Byte serialization of an optional integer field of the signed payload. -/
def optNatBytes : Option Nat → List Nat
  | none => [0]
  | some n => [1, n]

/-- Byte serialization of the claims payload, the message that is signed. -/
def claimsBytes (c : JwtClaims) : List Nat :=
  optStrBytes c.sub ++ optNatBytes c.exp ++ optStrBytes c.omn_cl_typ

/-- `encode_claims` (src/src/authn/claims.rs): `Header::new(Algorithm::HS512)`
plus the serialized claims, signed with the secret.  Deterministic. -/
def encode_claims (encodingKey : List Nat) (claims : JwtClaims) : Jwt :=
  ⟨hs512Alg, claims, hmacSha512 encodingKey (claimsBytes claims)⟩

/-- Modelled from the spec: default `leeway` of the external `jsonwebtoken`
crate's `Validation` — the verifier's allowed clock skew, 60 seconds. -/
def jwtLeeway : Nat := 60

/-- `decode_claims` (src/src/authn/claims.rs).  `Validation::new(HS512)`
with `set_required_spec_claims(&["sub", "exp"])`: the algorithm must be
HS512, the signature must verify against the secret, `sub` and `exp` must
be present, and `exp` must not lie more than the leeway before `now`
(the system clock, passed explicitly).  All failures collapse to the one
opaque `anyhow` error kind. -/
def decode_claims (now : Nat) (decodingKey : List Nat) (token : Jwt) : Except Unit JwtClaims :=
  if token.alg ≠ hs512Alg then .error ()
  else if token.sig ≠ hmacSha512 decodingKey (claimsBytes token.payload) then .error ()
  else if token.payload.sub = none then .error ()
  else
    match token.payload.exp with
    | none => .error ()
    | some e => if e + jwtLeeway < now then .error () else .ok token.payload

/-! ## JSON response envelope (`src/src/api/response.rs`) -/

/-- `StatusCode::canonical_reason` of the http crate, restricted to the
status codes the modelled paths produce. -/
def canonicalReason (code : Nat) : Option (List Char) :=
  if code = 200 then some "OK".toList
  else if code = 401 then some "Unauthorized".toList
  else if code = 500 then some "Internal Server Error".toList
  else none

/-- `JsonStatus`: the serialized error/status body. -/
structure JsonStatus where
  reason : Option (List Char)
  detail : Option (List Char)
deriving DecidableEq, Repr

/-- `JsonStatus::of`. -/
def JsonStatus.of (code : Nat) (detail : Option (List Char)) : JsonStatus :=
  ⟨canonicalReason code, detail⟩

/-- `JsonResponse<T>`, with the header map omitted: every modelled
constructor leaves it empty (`HeaderMap::new()`). -/
structure JsonResponse (α : Type) where
  code : Nat
  body : α
deriving DecidableEq, Repr

/-- `JsonResponse::of_status`. -/
def JsonResponse.of_status (code : Nat) : JsonResponse JsonStatus :=
  ⟨code, JsonStatus.of code none⟩

/-- `anyhow::Error`, as far as `ResponseError::into_response` can observe
it: either it downcasts to a `JsonResponse<JsonStatus>` or it is some other
(opaque) error. -/
inductive AnyhowError where
  | jsonStatusResponse : JsonResponse JsonStatus → AnyhowError
  | other : AnyhowError
deriving DecidableEq, Repr

/-- `ResponseError(pub anyhow::Error)`. -/
structure ResponseError where
  err : AnyhowError
deriving DecidableEq, Repr

/-- `JsonResponse::of_internal_err` (the server-side logging of the error is
outside the model): a bare 500 status response. -/
def JsonResponse.of_internal_err (_e : AnyhowError) : JsonResponse JsonStatus :=
  JsonResponse.of_status 500

/-- `ResponseError::into_response`: a wrapped `JsonResponse<JsonStatus>` is
returned as-is; anything else becomes the generic 500 response. -/
def ResponseError.into_response (e : ResponseError) : JsonResponse JsonStatus :=
  match e.err with
  | .jsonStatusResponse r => r
  | .other => JsonResponse.of_internal_err .other

/-- Lowercase hex digit, for JSON control-character escapes. -/
def hexDigit (n : Nat) : Char :=
  if n < 10 then Char.ofNat (48 + n) else Char.ofNat (87 + n)

/-- serde_json's escaping of one character inside a JSON string. -/
def jsonEscapeChar (c : Char) : List Char :=
  if c = '"' then ['\\', '"']
  else if c = '\\' then ['\\', '\\']
  else if c.toNat = 8 then ['\\', 'b']
  else if c.toNat = 9 then ['\\', 't']
  else if c.toNat = 10 then ['\\', 'n']
  else if c.toNat = 12 then ['\\', 'f']
  else if c.toNat = 13 then ['\\', 'r']
  else if c.toNat < 32 then ['\\', 'u', '0', '0', hexDigit (c.toNat / 16), hexDigit (c.toNat % 16)]
  else [c]

/-- serde_json rendering of a string value. -/
def jsonString (s : List Char) : List Char :=
  '"' :: ((s.flatMap jsonEscapeChar) ++ ['"'])

/-- serde_json rendering of an `Option<String>` value (`None` ↦ `null`). -/
def jsonOpt : Option (List Char) → List Char
  | none => "null".toList
  | some s => jsonString s

/-- serde_json rendering of a `JsonStatus` body, fields in declaration
order. -/
def jsonStatusBody (s : JsonStatus) : List Char :=
  "\x7b\"reason\":".toList ++ jsonOpt s.reason ++
  ",\"detail\":".toList ++ jsonOpt s.detail ++ "\x7d".toList

/-! ## SessionResolver / AccessEnforcer (`src/src/session/session.rs`) -/

/-- `Credential(pub String)`. -/
structure Credential where
  val : List Char
deriving DecidableEq, Repr

/-- `SessionClaims` (src/src/session/session.rs). -/
structure SessionClaims where
  sub : List Char
  exp : Nat
  omn_cl_typ : List Char
deriving DecidableEq, Repr

def SESSION_CLAIMS_TYPE : List Char := "session".toList

/-- `SessionClaims::expires_in` (src/src/session/session.rs): its body is
line-for-line the `expires_in` of src/src/authn/claims.rs. -/
def SessionClaims.expires_in (nowSinceEpoch : Option Nat) (durationSecs : Nat) :
    RustOutcome Nat :=
  match nowSinceEpoch with
  | none => .err
  | some now =>
    if u64Max < now + durationSecs then .panicked
    else if usizeMax < now + durationSecs then .err
    else .ok (now + durationSecs)

/-- An axum `Request`, restricted to what the middleware observes: the
header map and the one extension slot of the account type `U`. -/
structure Request (U : Type) where
  headers : List (List Char × List Char)
  extensions : Option U

/-- An `axum_extra` `CookieJar`: cookie names to values. -/
def CookieJar := List (List Char × List Char)

/-- `HeaderMap::get`: first header with the given (lowercase) name. -/
def headerGet (name : List Char) : List (List Char × List Char) → Option (List Char)
  | [] => none
  | (n, v) :: rest => if n = name then some v else headerGet name rest

/-- A byte admissible in `HeaderValue::to_str`, per the http crate's
`is_visible_ascii`: visible ASCII (32 up to but excluding the DEL byte
127), or tab.  Bytes 128-255, which a `HeaderValue` may hold, make
`to_str` fail. -/
def headerByteOk (c : Char) : Bool :=
  (32 ≤ c.toNat && c.toNat < 127) || c.toNat = 9

/-- `HeaderValue::to_str().ok()`: the value, when every byte is
admissible. -/
def toStrOk (v : List Char) : Option (List Char) :=
  if v.all headerByteOk then some v else none

def authorizationName : List Char := "authorization".toList

def bearerLit : List Char := "Bearer ".toList

/-- `Credential::from_authorization_header` (src/src/session/session.rs):
`authorization` header, `to_str().ok()`, then `str::strip_prefix("Bearer ")`,
wrapped as a `Credential`. -/
def Credential.from_authorization_header {U : Type} (request : Request U) : Option Credential :=
  (((headerGet authorizationName request.headers).bind toStrOk).bind
      (fun v => if v.take bearerLit.length = bearerLit
                then some (v.drop bearerLit.length) else none)).map
    (fun token => ⟨token⟩)

/-- The `SessionManager<U>` trait: the three collaborator capabilities,
as a record of functions.  `decode_claims` and `get_account` return
`anyhow::Result` values. -/
structure SessionManager (U : Type) where
  decode_claims : Credential → Except AnyhowError SessionClaims
  get_account : List Char → Except AnyhowError (Option U)
  extract_credential : Request U → CookieJar → Option Credential

/-- `authorize` (src/src/session/session.rs), the AccessEnforcer: pass the
request downstream iff the `U` extension is present, else fail with the 401
status response wrapped into a `ResponseError`. -/
def authorize {U R : Type} (request : Request U) (next : Request U → R) :
    Except ResponseError R :=
  match request.extensions with
  | some _ => .ok (next request)
  | none => .error ⟨.jsonStatusResponse (JsonResponse.of_status 401)⟩

/-- `resolve` (src/src/session/session.rs), the SessionResolver: extract a
credential, decode it, check the claim type, look the account up, attach it
— falling through to `next` unauthenticated at every step except a failed
lookup, whose error the `?` operator propagates. -/
def resolve {U R : Type} (sm : SessionManager U) (cookies : CookieJar)
    (request : Request U) (next : Request U → R) : Except ResponseError R :=
  match sm.extract_credential request cookies with
  | none => .ok (next request)
  | some credential =>
    match sm.decode_claims credential with
    | .error _ => .ok (next request)
    | .ok decoded =>
      if decoded.omn_cl_typ ≠ SESSION_CLAIMS_TYPE then .ok (next request)
      else
        match sm.get_account decoded.sub with
        | .error e => .error ⟨e⟩
        | .ok none => .ok (next request)
        | .ok (some account) => .ok (next { request with extensions := some account })

/-! ## Claim theorems -/

/-- C2: a request reaching the AccessEnforcer with no attached account gets
the 401 response with body `\x7b"reason":"Unauthorized","detail":null\x7d`
and the downstream handler does not run (the result is a constant,
independent of `next`); a request with an attached account gets the
downstream handler's response. -/
theorem authorize_enforcement {U R : Type} (r : Request U) (next : Request U → R) :
    (r.extensions = none →
      authorize r next =
        Except.error ⟨AnyhowError.jsonStatusResponse (JsonResponse.of_status 401)⟩ ∧
      ResponseError.into_response ⟨AnyhowError.jsonStatusResponse (JsonResponse.of_status 401)⟩ =
        JsonResponse.of_status 401 ∧
      (JsonResponse.of_status 401).code = 401 ∧
      jsonStatusBody (JsonResponse.of_status 401).body =
        "\x7b\"reason\":\"Unauthorized\",\"detail\":null\x7d".toList) ∧
    (∀ a, r.extensions = some a → authorize r next = Except.ok (next r)) := by
  constructor
  · intro h
    refine ⟨?_, rfl, rfl, by decide⟩
    unfold authorize
    rw [h]
  · intro a h
    unfold authorize
    rw [h]

theorem authorize_enforcement_witness :
    authorize (⟨[], none⟩ : Request Nat) (fun _ => (7 : Nat)) =
      Except.error ⟨AnyhowError.jsonStatusResponse (JsonResponse.of_status 401)⟩ ∧
    authorize (⟨[], some 5⟩ : Request Nat) (fun _ => (7 : Nat)) = Except.ok 7 :=
  ⟨((authorize_enforcement ⟨[], none⟩ (fun _ => 7)).1 rfl).1,
   (authorize_enforcement ⟨[], some 5⟩ (fun _ => 7)).2 5 rfl⟩

/-- C4 (code bug): on the empty payload — valid base64 that decodes to zero
bytes, fewer than the 12 the nonce split needs — `decrypt_string_aes256_gcm`
panics in `data.split_at(12)` instead of returning an error value as the
specification requires. -/
theorem decrypt_short_payload_panics :
    decrypt_string_aes256_gcm [] (List.replicate 32 65) = RustOutcome.panicked ∧
    decrypt_string_aes256_gcm [] (List.replicate 32 65) ≠ RustOutcome.err := by
  constructor
  · rfl
  · decide

/-- C9 (counterexample): when `now + duration` overflows the 64-bit seconds
counter, `expires_in` panics in `Duration::add`; it does not return an
error value as claimed. -/
theorem expires_in_overflow_cex :
    expires_in (some 1) u64Max = RustOutcome.panicked ∧
    expires_in (some 1) u64Max ≠ RustOutcome.err := by
  constructor
  · decide
  · decide

/-- C9 (amended): `expires_in` returns `now + duration` as seconds since
the epoch; it returns an error when the system clock is before the epoch;
when the sum overflows the 64-bit seconds counter it panics (in
`Duration::add`) rather than returning an error; on 64-bit targets the
`usize` conversion never fails; there are no other failure conditions.
`SessionClaims::expires_in` is the same function. -/
theorem expires_in_amended (now durationSecs : Nat) :
    expires_in none durationSecs = RustOutcome.err ∧
    (now + durationSecs ≤ u64Max →
      expires_in (some now) durationSecs = RustOutcome.ok (now + durationSecs)) ∧
    (u64Max < now + durationSecs →
      expires_in (some now) durationSecs = RustOutcome.panicked) ∧
    (∀ o d, SessionClaims.expires_in o d = expires_in o d) := by
  refine ⟨rfl, ?_, ?_, fun o d => rfl⟩
  · intro h
    simp only [expires_in]
    rw [if_neg (by omega), if_neg (by simp only [usizeMax]; omega)]
  · intro h
    simp only [expires_in]
    rw [if_pos h]

theorem expires_in_amended_witness :
    expires_in none 7 = RustOutcome.err ∧
    expires_in (some 5) 7 = RustOutcome.ok 12 ∧
    expires_in (some 1) u64Max = RustOutcome.panicked ∧
    SessionClaims.expires_in (some 5) 7 = expires_in (some 5) 7 :=
  ⟨(expires_in_amended 0 7).1,
   (expires_in_amended 5 7).2.1 (by decide),
   (expires_in_amended 1 u64Max).2.2.1 (by decide),
   (expires_in_amended 5 7).2.2.2 (some 5) 7⟩

/-- C10: a generated secret is the base64 encoding of exactly 64 random
bytes — an 88-character string — so its byte representation is at least 32
bytes and the key-derivation `read_exact` of the cipher never fails on it.
-/
theorem generated_secret_key_derivation (randomBytes : List Nat)
    (h : randomBytes.length = 64) :
    (create_service_secret randomBytes).value = b64Encode randomBytes ∧
    (create_session_secret randomBytes).value = b64Encode randomBytes ∧
    (create_service_secret randomBytes).value.length = 88 ∧
    (create_session_secret randomBytes).value.length = 88 ∧
    (strBytes (create_service_secret randomBytes).value).length = 88 ∧
    read_exact_32 (strBytes (create_service_secret randomBytes).value) =
      Except.ok ((strBytes (create_service_secret randomBytes).value).take 32) ∧
    read_exact_32 (strBytes (create_session_secret randomBytes).value) =
      Except.ok ((strBytes (create_session_secret randomBytes).value).take 32) := by
  have hlen : (b64Encode randomBytes).length = 88 := by
    rw [b64Encode_length, h]
  have hbytes : (strBytes (b64Encode randomBytes)).length = 88 := by
    simp [strBytes, hlen]
  refine ⟨rfl, rfl, hlen, hlen, hbytes, ?_, ?_⟩ <;>
    · simp only [read_exact_32, create_service_secret, create_session_secret]
      rw [if_neg (by simp [strBytes, hlen])]

theorem generated_secret_key_derivation_witness :
    (create_service_secret (List.replicate 64 0)).value.length = 88 ∧
    read_exact_32 (strBytes (create_service_secret (List.replicate 64 0)).value) =
      Except.ok ((strBytes (create_service_secret (List.replicate 64 0)).value).take 32) :=
  ⟨(generated_secret_key_derivation (List.replicate 64 0) (by decide)).2.2.1,
   (generated_secret_key_derivation (List.replicate 64 0) (by decide)).2.2.2.2.2.1⟩

/-- C1: the SessionResolver is pass-through — with no credential extracted,
with a credential whose claims fail to decode, or with decoded claims whose
`omn_cl_typ` differs from the session sentinel, it continues downstream on
the unchanged request (no account attached), all three cases behaving
identically; and the only errors it can return are those produced by the
account-lookup collaborator, so it never itself produces a 401. -/
theorem resolve_pass_through {U R : Type} (sm : SessionManager U) (cookies : CookieJar)
    (r : Request U) (next : Request U → R) :
    (sm.extract_credential r cookies = none →
      resolve sm cookies r next = Except.ok (next r)) ∧
    (∀ c ea, sm.extract_credential r cookies = some c →
      sm.decode_claims c = Except.error ea →
      resolve sm cookies r next = Except.ok (next r)) ∧
    (∀ c d, sm.extract_credential r cookies = some c →
      sm.decode_claims c = Except.ok d → d.omn_cl_typ ≠ SESSION_CLAIMS_TYPE →
      resolve sm cookies r next = Except.ok (next r)) ∧
    (∀ e : AnyhowError, (∀ s, sm.get_account s ≠ Except.error e) →
      resolve sm cookies r next ≠ Except.error ⟨e⟩) := by
  refine ⟨?_, ?_, ?_, ?_⟩
  · intro h
    simp only [resolve, h]
  · intro c ea hx hd
    simp only [resolve, hx, hd]
  · intro c d hx hd ht
    simp only [resolve, hx, hd, if_pos ht]
  · intro e he
    cases hx : sm.extract_credential r cookies with
    | none => simp [resolve, hx]
    | some c =>
      cases hd : sm.decode_claims c with
      | error ea => simp [resolve, hx, hd]
      | ok d =>
        by_cases ht : d.omn_cl_typ ≠ SESSION_CLAIMS_TYPE
        · simp [resolve, hx, hd, ht]
        · cases hg : sm.get_account d.sub with
          | error e2 =>
            simp only [resolve, hx, hd, if_neg ht, hg, ne_eq, Except.error.injEq]
            intro hcontra
            injection hcontra with h2
            subst h2
            exact he d.sub hg
          | ok o =>
            cases o with
            | none => simp [resolve, hx, hd, if_neg ht, hg]
            | some account => simp [resolve, hx, hd, if_neg ht, hg]

theorem resolve_pass_through_witness :
    (resolve (U := Nat) (R := Nat)
        ⟨fun _ => Except.ok ⟨[], 0, []⟩, fun _ => Except.ok none, fun _ _ => none⟩
        [] ⟨[], none⟩ (fun _ => 3) = Except.ok 3) ∧
    (resolve (U := Nat) (R := Nat)
        ⟨fun _ => Except.error AnyhowError.other, fun _ => Except.ok none,
          fun _ _ => some ⟨[]⟩⟩
        [] ⟨[], none⟩ (fun _ => 3) = Except.ok 3) ∧
    (resolve (U := Nat) (R := Nat)
        ⟨fun _ => Except.ok ⟨[], 0, ['x']⟩, fun _ => Except.ok none,
          fun _ _ => some ⟨[]⟩⟩
        [] ⟨[], none⟩ (fun _ => 3) = Except.ok 3) ∧
    (resolve (U := Nat) (R := Nat)
        ⟨fun _ => Except.ok ⟨[], 0, SESSION_CLAIMS_TYPE⟩, fun _ => Except.ok none,
          fun _ _ => some ⟨[]⟩⟩
        [] ⟨[], none⟩ (fun _ => 3) ≠
      Except.error ⟨AnyhowError.other⟩) :=
  ⟨(resolve_pass_through _ _ _ _).1 rfl,
   (resolve_pass_through _ _ _ _).2.1 ⟨[]⟩ AnyhowError.other rfl rfl,
   (resolve_pass_through _ _ _ _).2.2.1 ⟨[]⟩ ⟨[], 0, ['x']⟩ rfl rfl (by decide),
   (resolve_pass_through _ _ _ _).2.2.2 AnyhowError.other (fun s => by simp)⟩

/-- C5: with a verified session token, a backend error from the
account-lookup collaborator propagates out of the resolver and renders as
the generic 500 response with no detail, while a lookup returning no
account is pass-through. -/
theorem resolve_lookup_error_propagates {U R : Type} (sm : SessionManager U)
    (cookies : CookieJar) (r : Request U) (next : Request U → R)
    (c : Credential) (d : SessionClaims)
    (hx : sm.extract_credential r cookies = some c)
    (hd : sm.decode_claims c = Except.ok d)
    (ht : d.omn_cl_typ = SESSION_CLAIMS_TYPE) :
    (sm.get_account d.sub = Except.error AnyhowError.other →
      resolve sm cookies r next = Except.error ⟨AnyhowError.other⟩ ∧
      ResponseError.into_response ⟨AnyhowError.other⟩ = JsonResponse.of_status 500 ∧
      (JsonResponse.of_status 500).code = 500 ∧
      (JsonResponse.of_status 500).body.detail = none) ∧
    (sm.get_account d.sub = Except.ok none →
      resolve sm cookies r next = Except.ok (next r)) := by
  constructor
  · intro hg
    refine ⟨?_, rfl, rfl, rfl⟩
    simp only [resolve, hx, hd, ht, hg]
    rw [if_neg (fun hcon => hcon rfl)]
  · intro hg
    simp only [resolve, hx, hd, ht, hg]
    rw [if_neg (fun hcon => hcon rfl)]

theorem resolve_lookup_error_propagates_witness :
    (resolve (U := Nat) (R := Nat)
        ⟨fun _ => Except.ok ⟨['u'], 0, SESSION_CLAIMS_TYPE⟩,
          fun _ => Except.error AnyhowError.other, fun _ _ => some ⟨[]⟩⟩
        [] ⟨[], none⟩ (fun _ => 3) = Except.error ⟨AnyhowError.other⟩) ∧
    (resolve (U := Nat) (R := Nat)
        ⟨fun _ => Except.ok ⟨['u'], 0, SESSION_CLAIMS_TYPE⟩,
          fun _ => Except.ok none, fun _ _ => some ⟨[]⟩⟩
        [] ⟨[], none⟩ (fun _ => 3) = Except.ok 3) :=
  ⟨((resolve_lookup_error_propagates _ _ _ _ ⟨[]⟩ ⟨['u'], 0, SESSION_CLAIMS_TYPE⟩
      rfl rfl rfl).1 rfl).1,
   (resolve_lookup_error_propagates _ _ _ _ ⟨[]⟩ ⟨['u'], 0, SESSION_CLAIMS_TYPE⟩
      rfl rfl rfl).2 rfl⟩

/-- C7: credential extraction from the `authorization` header strips the
`Bearer ` prefix and returns the remainder; an absent header, or a value
not starting with `Bearer `, yields no credential. -/
theorem from_authorization_header_contract {U : Type} (r : Request U) :
    (∀ t, headerGet authorizationName r.headers = some (bearerLit ++ t) →
      (bearerLit ++ t).all headerByteOk = true →
      Credential.from_authorization_header r = some ⟨t⟩) ∧
    (headerGet authorizationName r.headers = none →
      Credential.from_authorization_header r = none) ∧
    (∀ v, headerGet authorizationName r.headers = some v →
      v.take bearerLit.length ≠ bearerLit →
      Credential.from_authorization_header r = none) := by
  refine ⟨?_, ?_, ?_⟩
  · intro t hh hok
    simp only [Credential.from_authorization_header, hh, Option.some_bind, toStrOk,
      if_pos hok, List.take_left, if_pos rfl, List.drop_left]
    simp
  · intro hh
    simp only [Credential.from_authorization_header, hh, Option.none_bind]
    simp
  · intro v hh hnp
    simp only [Credential.from_authorization_header, hh, Option.some_bind, toStrOk]
    by_cases hall : v.all headerByteOk = true
    · simp [hall, hnp]
    · simp [hall]

theorem from_authorization_header_contract_witness :
    Credential.from_authorization_header
        (⟨[(authorizationName, bearerLit ++ ['t'])], none⟩ : Request Nat) =
      some ⟨['t']⟩ ∧
    Credential.from_authorization_header (⟨[], none⟩ : Request Nat) = none ∧
    Credential.from_authorization_header
        (⟨[(authorizationName, ['t'])], none⟩ : Request Nat) = none :=
  ⟨(from_authorization_header_contract _).1 ['t'] (by decide) (by decide),
   (from_authorization_header_contract _).2.1 rfl,
   (from_authorization_header_contract _).2.2 ['t'] (by decide) (by decide)⟩

/-- C6: a correctly signed token whose `exp` is 45 seconds in the past
still verifies (within the verifier's 60-second clock-skew window), one
whose `exp` is 120 seconds in the past fails, and verification requires the
`sub` and `exp` fields to be present. -/
theorem decode_claims_expiry_and_required (now : Nat) (key : List Nat)
    (subject : List Char) (typ : Option (List Char)) :
    (45 ≤ now →
      decode_claims now key (encode_claims key ⟨some subject, some (now - 45), typ⟩) =
        Except.ok ⟨some subject, some (now - 45), typ⟩) ∧
    (120 ≤ now →
      decode_claims now key (encode_claims key ⟨some subject, some (now - 120), typ⟩) =
        Except.error ()) ∧
    (∀ c : JwtClaims, c.sub = none →
      decode_claims now key (encode_claims key c) = Except.error ()) ∧
    (∀ c : JwtClaims, c.exp = none →
      decode_claims now key (encode_claims key c) = Except.error ()) := by
  refine ⟨?_, ?_, ?_, ?_⟩
  · intro h
    have hle : ¬(now - 45 + 60 < now) := by omega
    simp [decode_claims, encode_claims, jwtLeeway, hle]
  · intro h
    have hlt : now - 120 + 60 < now := by omega
    simp [decode_claims, encode_claims, jwtLeeway, hlt]
  · intro c hc
    simp [decode_claims, encode_claims, hc]
  · intro c hc
    simp [decode_claims, encode_claims, hc]

theorem decode_claims_expiry_and_required_witness :
    decode_claims 200 [1, 2] (encode_claims [1, 2]
        ⟨some ['u'], some 155, some SESSION_CLAIMS_TYPE⟩) =
      Except.ok ⟨some ['u'], some 155, some SESSION_CLAIMS_TYPE⟩ ∧
    decode_claims 200 [1, 2] (encode_claims [1, 2]
        ⟨some ['u'], some 80, some SESSION_CLAIMS_TYPE⟩) = Except.error () ∧
    decode_claims 200 [1, 2] (encode_claims [1, 2] ⟨none, some 500, none⟩) =
      Except.error () ∧
    decode_claims 200 [1, 2] (encode_claims [1, 2] ⟨some ['u'], none, none⟩) =
      Except.error () :=
  ⟨(decode_claims_expiry_and_required 200 [1, 2] ['u'] (some SESSION_CLAIMS_TYPE)).1
      (by decide),
   (decode_claims_expiry_and_required 200 [1, 2] ['u'] (some SESSION_CLAIMS_TYPE)).2.1
      (by decide),
   (decode_claims_expiry_and_required 200 [1, 2] ['u'] none).2.2.1 ⟨none, some 500, none⟩ rfl,
   (decode_claims_expiry_and_required 200 [1, 2] ['u'] none).2.2.2 ⟨some ['u'], none, none⟩ rfl⟩

/-- C3: decrypting an encryption of plaintext `P` under a secret of at
least 32 bytes, with the same secret, succeeds and returns `P`. -/
theorem encrypt_decrypt_round_trip (P S nonce : List Nat)
    (hP : ∀ b ∈ P, b < 256) (hS : 32 ≤ S.length)
    (hn : nonce.length = 12) (hnb : ∀ b ∈ nonce, b < 256)
    (hutf : isValidUtf8 P = true) :
    encryptThenDecrypt P S nonce = RustOutcome.ok P := by
  have hkey : read_exact_32 S = Except.ok (S.take 32) := by
    simp only [read_exact_32]
    rw [if_neg (by omega)]
  have hct : ∀ b ∈ nonce ++ aes256gcmEncrypt (S.take 32) nonce P, b < 256 := by
    intro b hb
    rcases List.mem_append.mp hb with hb1 | hb2
    · exact hnb b hb1
    · rcases List.mem_append.mp hb2 with hb3 | hb4
      · exact hP b hb3
      · exact gcmTag_bytes _ _ _ b hb4
  have hdatalen : (nonce ++ aes256gcmEncrypt (S.take 32) nonce P).length =
      12 + (P.length + 16) := by
    simp [aes256gcmEncrypt, gcmTag_length, hn]
  have htake : (nonce ++ aes256gcmEncrypt (S.take 32) nonce P).take 12 = nonce := by
    rw [← hn]
    exact List.take_left nonce _
  have hdrop : (nonce ++ aes256gcmEncrypt (S.take 32) nonce P).drop 12 =
      aes256gcmEncrypt (S.take 32) nonce P := by
    rw [← hn]
    exact List.drop_left nonce _
  simp only [encryptThenDecrypt, encrypt_string_aes256_gcm, hkey,
    decrypt_string_aes256_gcm, b64Decode_b64Encode _ hct]
  rw [if_neg (by omega)]
  simp only [htake, hdrop, aes256gcmDecrypt_encrypt, hutf, if_true]

theorem encrypt_decrypt_round_trip_witness :
    encryptThenDecrypt [104, 105] (List.replicate 32 7) (List.range 12) =
      RustOutcome.ok [104, 105] :=
  encrypt_decrypt_round_trip [104, 105] (List.replicate 32 7) (List.range 12)
    (by decide) (by decide) (by decide) (by decide) (by decide)

/-- C8: two encryptions of the same plaintext under the same secret with
distinct 12-byte nonces yield distinct outputs — `encrypt` is
non-deterministic precisely through the per-call random nonce, which is
embedded in the output. -/
theorem encrypt_distinct_nonces_differ (P S n1 n2 : List Nat)
    (hP : ∀ b ∈ P, b < 256) (hS : 32 ≤ S.length)
    (h1 : n1.length = 12) (h2 : n2.length = 12)
    (h1b : ∀ b ∈ n1, b < 256) (h2b : ∀ b ∈ n2, b < 256)
    (hne : n1 ≠ n2) :
    encrypt_string_aes256_gcm P S n1 ≠ encrypt_string_aes256_gcm P S n2 := by
  have hkey : read_exact_32 S = Except.ok (S.take 32) := by
    simp only [read_exact_32]
    rw [if_neg (by omega)]
  have hb1 : ∀ b ∈ n1 ++ aes256gcmEncrypt (S.take 32) n1 P, b < 256 := by
    intro b hb
    rcases List.mem_append.mp hb with hx | hx
    · exact h1b b hx
    · rcases List.mem_append.mp hx with hy | hy
      · exact hP b hy
      · exact gcmTag_bytes _ _ _ b hy
  have hb2 : ∀ b ∈ n2 ++ aes256gcmEncrypt (S.take 32) n2 P, b < 256 := by
    intro b hb
    rcases List.mem_append.mp hb with hx | hx
    · exact h2b b hx
    · rcases List.mem_append.mp hx with hy | hy
      · exact hP b hy
      · exact gcmTag_bytes _ _ _ b hy
  simp only [encrypt_string_aes256_gcm, hkey]
  intro hcontra
  injection hcontra with henc
  have hdata := b64Encode_injOn _ _ hb1 hb2 henc
  have htk := congrArg (List.take 12) hdata
  rw [← h1, List.take_left] at htk
  rw [h1, ← h2, List.take_left] at htk
  exact hne htk

theorem encrypt_distinct_nonces_differ_witness :
    encrypt_string_aes256_gcm [104, 105] (List.replicate 32 7) (List.range 12) ≠
      encrypt_string_aes256_gcm [104, 105] (List.replicate 32 7) (List.replicate 12 9) :=
  encrypt_distinct_nonces_differ [104, 105] (List.replicate 32 7) (List.range 12)
    (List.replicate 12 9) (by decide) (by decide) (by decide) (by decide) (by decide)
    (by decide) (by decide)
